import Mathlib

/-!
# SizeCalculator and presentation-script verification

Verification development for `create_presentations.py`.

The script's own executable logic is slide rendering plus a `__main__` block
that saves three PowerPoint files to hard-coded absolute paths; that part is
embedded directly (`mainWrites` below).  The SizeCalculator component
(`convertSizeToBytes`, `calculateOptimalFileCount`, `calculateRequiredSpace`)
is described by the repository only as slide prose (the PowerShell functions
`Convert-SizeToInt`, `Calculate-OptimalDataFiles`, `Test-DbaSufficientDiskSpace`
are named on the "Core Functions" slide but their code is not part of this
repository), so those definitions are modelled from the specification text.
-/

namespace SizeCalc

/-- Modelled from the spec: error kinds of the SizeCalculator component
(`InvalidSizeFormat` for an unparseable size string, `InvalidThreshold` for a
zero or negative threshold, `InvalidInput` for a negative size given to a
space computation).  The calculator itself exists in the repository only as
slide prose, not as code under `src/`. -/
inductive CalcError where
  | InvalidSizeFormat
  | InvalidThreshold
  | InvalidInput
deriving DecidableEq, Repr

/-- A character is a decimal digit: its code point lies in `['0'..'9']`,
i.e. in `[48, 57]`. -/
def isDigitChar (c : Char) : Bool :=
  48 ≤ c.toNat && c.toNat ≤ 57

/-- Numeric value of a digit character (`'0' ↦ 0`, ..., `'9' ↦ 9`). -/
def digitVal (c : Char) : ℕ :=
  c.toNat - 48

/-- ASCII upper-casing of a single character; used to make unit-suffix
matching case-insensitive. -/
def upperChar (c : Char) : Char :=
  if 97 ≤ c.toNat ∧ c.toNat ≤ 122 then Char.ofNat (c.toNat - 32) else c

/-- Parse a non-empty all-digit character list as a natural number
(most significant digit first); any other list is rejected. -/
def parseNatDigits (cs : List Char) : Option ℕ :=
  if cs.isEmpty then none
  else if cs.all isDigitChar then
    some (cs.foldl (fun acc c => acc * 10 + digitVal c) 0)
  else none

/-- Split a character list at the first `'.'`: returns the part before the
dot and, when a dot is present, the part after it. -/
def splitAtDot : List Char → List Char × Option (List Char)
  | [] => ([], none)
  | c :: rest =>
    if c = '.' then ([], some rest)
    else
      let p := splitAtDot rest
      (c :: p.1, p.2)

/-- Modelled from the spec: parse a decimal number — either all digits, or
digits, one dot, digits — as a non-negative rational. -/
def parseDecimal (cs : List Char) : Option ℚ :=
  match splitAtDot cs with
  | (intPart, none) => (parseNatDigits intPart).map (fun n => (n : ℚ))
  | (intPart, some fracPart) =>
    match parseNatDigits intPart, parseNatDigits fracPart with
    | some n, some f => some ((n : ℚ) + (f : ℚ) / (10 : ℚ) ^ fracPart.length)
    | _, _ => none

/-- Byte multiplier of the first letter of a two-letter unit suffix
(binary multiples: `K ↦ 1024`, `M ↦ 1024²`, `G ↦ 1024³`, `T ↦ 1024⁴`);
any other character means the suffix was just `B`. -/
def unitFactor (c : Char) : Option ℚ :=
  if c = 'K' then some 1024
  else if c = 'M' then some (1024 ^ 2)
  else if c = 'G' then some (1024 ^ 3)
  else if c = 'T' then some (1024 ^ 4)
  else none

/-- Split a size string into its numeric part and the byte multiplier of its
unit suffix (`B`, `KB`, `MB`, `GB` or `TB`, case-insensitive); `none` when no
recognized unit suffix is present. -/
def stripUnit (cs : List Char) : Option (List Char × ℚ) :=
  match cs.reverse with
  | [] => none
  | b :: rest =>
    if upperChar b = 'B' then
      match rest with
      | [] => none
      | k :: rest2 =>
        match unitFactor (upperChar k) with
        | some f => some (rest2.reverse, f)
        | none => some (rest.reverse, 1)
    else none

/-- Modelled from the spec: `convertSizeToBytes(input: string) → SizeValue`.
The string must be a decimal number followed by a unit suffix in
`{B, KB, MB, GB, TB}` (case-insensitive, binary multiples); otherwise the
call fails with `InvalidSizeFormat`.  The missing code is the PowerShell
function `Convert-SizeToInt` named on the "Core Functions" slide. -/
def convertSizeToBytes (s : String) : Except CalcError ℚ :=
  match stripUnit s.toList with
  | none => .error .InvalidSizeFormat
  | some (numPart, factor) =>
    match parseDecimal numPart with
    | some q => .ok (q * factor)
    | none => .error .InvalidSizeFormat

/-- A size string is well-formed when it carries a recognized unit suffix and
its remaining numeric part is a decimal number.  Used to characterize exactly
when `convertSizeToBytes` fails. -/
def isDecimal (cs : List Char) : Bool :=
  match splitAtDot cs with
  | (intPart, none) => !intPart.isEmpty && intPart.all isDigitChar
  | (intPart, some fracPart) =>
    (!intPart.isEmpty && intPart.all isDigitChar) &&
      (!fracPart.isEmpty && fracPart.all isDigitChar)

/-- Whether a string matches the `<number><unit>` size format of the spec. -/
def isSizeFormat (s : String) : Bool :=
  match stripUnit s.toList with
  | none => false
  | some (numPart, _) => isDecimal numPart

/-- Whether a conversion result is a success. -/
def isOkResult (r : Except CalcError ℚ) : Bool :=
  match r with
  | .ok _ => true
  | .error _ => false

/-- Modelled from the spec:
`calculateOptimalFileCount(expectedSize, threshold, maxFiles = 8)`.
Fails with `InvalidThreshold` on a zero or negative threshold; returns 1 when
`expectedSize ≤ threshold`; otherwise the ceiling of the ratio, clamped to
`maxFiles`.  The missing code is the PowerShell function
`Calculate-OptimalDataFiles`; the slides give the formula
(`if (ExpectedSize > Threshold) numberOfFiles = Ceiling(ExpectedSize / Threshold)
else numberOfFiles = 1`, capped at 8). -/
def calculateOptimalFileCount (expectedSize threshold : ℚ)
    (maxFiles : ℕ := 8) : Except CalcError ℕ :=
  if threshold ≤ 0 then .error .InvalidThreshold
  else if expectedSize ≤ threshold then .ok 1
  else .ok (min maxFiles ⌈expectedSize / threshold⌉.toNat)

/-- Modelled from the spec: a computed space requirement, with the separate
per-drive totals and the combined total (margin already applied to each). -/
structure SpaceRequirement where
  dataDrive : ℚ
  logDrive : ℚ
  total : ℚ
deriving DecidableEq, Repr

/-- Modelled from the spec:
`calculateRequiredSpace(fileCount, dataFileSize, logSize, marginFactor = 1.10)`.
Fails with `InvalidInput` on a negative size; otherwise
`requiredData = fileCount × dataFileSize`,
data-drive requirement `= requiredData × marginFactor`,
log-drive requirement `= logSize × marginFactor`,
`requiredTotal = (requiredData + logSize) × marginFactor`.
The slide gives the steps
(`FileCount × DataSize`, `RequiredSpace × 1.10`, `LogSize × 1.10`). -/
def calculateRequiredSpace (fileCount : ℕ) (dataFileSize logSize : ℚ)
    (marginFactor : ℚ := 11 / 10) : Except CalcError SpaceRequirement :=
  if dataFileSize < 0 ∨ logSize < 0 then .error .InvalidInput
  else
    .ok ⟨(fileCount : ℚ) * dataFileSize * marginFactor,
         logSize * marginFactor,
         ((fileCount : ℚ) * dataFileSize + logSize) * marginFactor⟩

/-- Big-endian decimal digit characters of a natural number; `0 ↦ ['0']`. -/
def natToDigits (n : ℕ) : List Char :=
  if n = 0 then ['0']
  else ((Nat.digits 10 n).map (fun d => Char.ofNat (48 + d))).reverse

/-- The canonical string form of a byte count: its decimal digits followed by
the unit `B`. -/
def canonicalSizeString (n : ℕ) : String :=
  String.mk (natToDigits n ++ ['B'])

end SizeCalc

namespace PresentationScript

/-- Path hard-coded in `create_overview_presentation` (`prs.save(...)`). -/
def overviewSavePath : String :=
  "/home/ubuntu/sqlserver-databasescripts/SQL_Server_Database_Scripts_Overview.pptx"

/-- Path hard-coded in `create_technical_presentation` (`prs.save(...)`). -/
def technicalSavePath : String :=
  "/home/ubuntu/sqlserver-databasescripts/SQL_Server_Technical_Documentation.pptx"

/-- Path hard-coded in `create_user_guide_presentation` (`prs.save(...)`). -/
def userGuideSavePath : String :=
  "/home/ubuntu/sqlserver-databasescripts/SQL_Server_User_Guide.pptx"

/-- Ambient process state a Python script could in principle consult:
working directory, environment variables, command-line arguments.
`create_presentations.py` reads none of them. -/
structure ScriptEnv where
  workingDirectory : String
  environmentVariables : List (String × String)
  argv : List String

/-- Files written by `create_overview_presentation`: exactly one `prs.save`
call, with a hard-coded absolute path (line 480 of the script). -/
def overviewPresentationWrites (_env : ScriptEnv) : List String :=
  [overviewSavePath]

/-- Files written by `create_technical_presentation`: exactly one `prs.save`
call, with a hard-coded absolute path (line 699 of the script). -/
def technicalPresentationWrites (_env : ScriptEnv) : List String :=
  [technicalSavePath]

/-- Files written by `create_user_guide_presentation`: exactly one `prs.save`
call, with a hard-coded absolute path (line 972 of the script). -/
def userGuidePresentationWrites (_env : ScriptEnv) : List String :=
  [userGuideSavePath]

/-- Files written by the `__main__` block, in execution order: it calls
`create_overview_presentation()`, then `create_technical_presentation()`,
then `create_user_guide_presentation()` (lines 979–981). -/
def mainWrites (env : ScriptEnv) : List String :=
  overviewPresentationWrites env ++ technicalPresentationWrites env ++
    userGuidePresentationWrites env

end PresentationScript

namespace SizeCalc

/-- Helper: on non-negative sizes `calculateRequiredSpace` succeeds and
returns the three computed totals. -/
lemma calculateRequiredSpace_eq (fc : ℕ) (d l m : ℚ) (hd : 0 ≤ d) (hl : 0 ≤ l) :
    calculateRequiredSpace fc d l m =
      .ok ⟨(fc : ℚ) * d * m, l * m, ((fc : ℚ) * d + l) * m⟩ := by
  unfold calculateRequiredSpace
  rw [if_neg (by push_neg; exact ⟨hd, hl⟩)]

/-- Claim C1: for every valid pair with `expectedSize ≤ threshold`,
`calculateOptimalFileCount` returns exactly 1, including the boundary case
`expectedSize = threshold` (1 file, not 2). -/
theorem calculateOptimalFileCount_eq_one_of_le (e t : ℚ) (m : ℕ)
    (_he : 0 ≤ e) (ht : 0 < t) (hle : e ≤ t) :
    calculateOptimalFileCount e t m = .ok 1 := by
  unfold calculateOptimalFileCount
  rw [if_neg (not_le.mpr ht), if_pos hle]

/-- Witness for C1, at the boundary `expectedSize = threshold = 10GB`. -/
theorem calculateOptimalFileCount_eq_one_of_le_witness :
    calculateOptimalFileCount (10 * 1024 ^ 3 : ℚ) (10 * 1024 ^ 3) 8 = .ok 1 :=
  calculateOptimalFileCount_eq_one_of_le _ _ 8 (by norm_num) (by norm_num) le_rfl

/-- Claim C2: for every valid pair with `expectedSize > threshold`,
`calculateOptimalFileCount` returns `min maxFiles ⌈expectedSize / threshold⌉`,
so the result never exceeds the cap even when ceiling division yields more. -/
theorem calculateOptimalFileCount_eq_min_ceil_of_gt (e t : ℚ) (m : ℕ)
    (ht : 0 < t) (hgt : t < e) :
    calculateOptimalFileCount e t m = .ok (min m ⌈e / t⌉.toNat) := by
  unfold calculateOptimalFileCount
  rw [if_neg (not_le.mpr ht), if_neg (not_le.mpr hgt)]

/-- Witness for C2, at `expectedSize = 100GB`, `threshold = 10GB`: the raw
ceiling value is 10 and the returned count is capped at 8. -/
theorem calculateOptimalFileCount_eq_min_ceil_of_gt_witness :
    calculateOptimalFileCount (100 * 1024 ^ 3 : ℚ) (10 * 1024 ^ 3) 8 = .ok 8 ∧
      ⌈(100 * 1024 ^ 3 : ℚ) / (10 * 1024 ^ 3)⌉.toNat = 10 := by
  have hdiv : (100 * 1024 ^ 3 : ℚ) / (10 * 1024 ^ 3) = 10 := by norm_num
  have h := calculateOptimalFileCount_eq_min_ceil_of_gt
    (100 * 1024 ^ 3 : ℚ) (10 * 1024 ^ 3) 8 (by norm_num) (by norm_num)
  rw [hdiv] at h ⊢
  constructor
  · rw [h]; norm_num
  · decide

/-- Claim C3: whenever `calculateOptimalFileCount` (with the default cap of 8)
succeeds, the returned count satisfies `1 ≤ count ≤ 8`, regardless of the
unclamped computed value. -/
theorem calculateOptimalFileCount_invariant (e t : ℚ) (n : ℕ)
    (h : calculateOptimalFileCount e t 8 = .ok n) : 1 ≤ n ∧ n ≤ 8 := by
  unfold calculateOptimalFileCount at h
  by_cases ht : t ≤ 0
  · rw [if_pos ht] at h
    exact absurd h (by simp)
  · rw [if_neg ht] at h
    by_cases hle : e ≤ t
    · rw [if_pos hle] at h
      simp only [Except.ok.injEq] at h
      omega
    · rw [if_neg hle] at h
      simp only [Except.ok.injEq] at h
      push_neg at ht hle
      have h1 : (1 : ℚ) < e / t := (one_lt_div ht).mpr hle
      have h2 : (1 : ℤ) < ⌈e / t⌉ := by
        have hc := Int.le_ceil (e / t)
        exact_mod_cast h1.trans_le hc
      omega

/-- Witness for C3, at `expectedSize = 5`, `threshold = 2` (count 3). -/
theorem calculateOptimalFileCount_invariant_witness : 1 ≤ 3 ∧ 3 ≤ 8 :=
  calculateOptimalFileCount_invariant 5 2 3 (by
    have hceil : ⌈(5 : ℚ) / 2⌉ = 3 := by
      rw [Int.ceil_eq_iff]
      norm_num
    unfold calculateOptimalFileCount
    norm_num [hceil]
    decide)

/-- Claim C4: `calculateOptimalFileCount` fails with `InvalidThreshold` on a
zero (or negative) threshold; the `Except.error` result carries no count, so
nothing is silently defaulted and no partial result is returned. -/
theorem calculateOptimalFileCount_invalidThreshold (e t : ℚ) (m : ℕ)
    (ht : t ≤ 0) :
    calculateOptimalFileCount e t m = .error .InvalidThreshold := by
  unfold calculateOptimalFileCount
  rw [if_pos ht]

/-- Witness for C4, at threshold 0. -/
theorem calculateOptimalFileCount_invalidThreshold_witness :
    calculateOptimalFileCount (50 * 1024 ^ 3 : ℚ) 0 8 = .error .InvalidThreshold :=
  calculateOptimalFileCount_invalidThreshold _ 0 8 le_rfl

/-- Claim C7: on non-negative sizes `calculateRequiredSpace` succeeds with
`requiredTotal = (fileCount × dataFileSize + logSize) × marginFactor`. -/
theorem calculateRequiredSpace_total (fc : ℕ) (d l m : ℚ)
    (hd : 0 ≤ d) (hl : 0 ≤ l) :
    ∃ r, calculateRequiredSpace fc d l m = .ok r ∧
      r.total = ((fc : ℚ) * d + l) * m :=
  ⟨_, calculateRequiredSpace_eq fc d l m hd hl, rfl⟩

/-- Witness for C7, scenario D: `calculateRequiredSpace(4, 200MB, 100MB, 1.10)`
has total `(4 × 200MB + 100MB) × 1.10 = 990MB`. -/
theorem calculateRequiredSpace_total_witness :
    ∃ r, calculateRequiredSpace 4 (200 * 1024 ^ 2) (100 * 1024 ^ 2) (11 / 10) =
        .ok r ∧ r.total = (990 * 1024 ^ 2 : ℚ) := by
  obtain ⟨r, hr, ht⟩ := calculateRequiredSpace_total 4
    (200 * 1024 ^ 2) (100 * 1024 ^ 2) (11 / 10) (by norm_num) (by norm_num)
  exact ⟨r, hr, by rw [ht]; norm_num⟩

/-- Claim C8: `calculateRequiredSpace` also exposes the separate per-drive
totals, `dataDrive = fileCount × dataFileSize × marginFactor` and
`logDrive = logSize × marginFactor`. -/
theorem calculateRequiredSpace_perDrive (fc : ℕ) (d l m : ℚ)
    (hd : 0 ≤ d) (hl : 0 ≤ l) :
    ∃ r, calculateRequiredSpace fc d l m = .ok r ∧
      r.dataDrive = (fc : ℚ) * d * m ∧ r.logDrive = l * m :=
  ⟨_, calculateRequiredSpace_eq fc d l m hd hl, rfl, rfl⟩

/-- Witness for C8, at the scenario-D inputs: data drive `880MB`, log drive
`110MB`. -/
theorem calculateRequiredSpace_perDrive_witness :
    ∃ r, calculateRequiredSpace 4 (200 * 1024 ^ 2) (100 * 1024 ^ 2) (11 / 10) =
        .ok r ∧ r.dataDrive = (880 * 1024 ^ 2 : ℚ) ∧
        r.logDrive = (110 * 1024 ^ 2 : ℚ) := by
  obtain ⟨r, hr, hdat, hlog⟩ := calculateRequiredSpace_perDrive 4
    (200 * 1024 ^ 2) (100 * 1024 ^ 2) (11 / 10) (by norm_num) (by norm_num)
  exact ⟨r, hr, by rw [hdat]; norm_num, by rw [hlog]; norm_num⟩

end SizeCalc

namespace PresentationScript

/-- Claim C10: run as the main program, the script writes exactly three
PowerPoint files, always to the same hard-coded absolute paths under
`/home/ubuntu/sqlserver-databasescripts/` (Overview, then Technical
Documentation, then User Guide, in that fixed order), independent of any
input, environment, or working directory. -/
theorem mainWrites_three_fixed_paths :
    (∀ env env' : ScriptEnv, mainWrites env = mainWrites env') ∧
    (∀ env : ScriptEnv, mainWrites env =
      ["/home/ubuntu/sqlserver-databasescripts/SQL_Server_Database_Scripts_Overview.pptx",
       "/home/ubuntu/sqlserver-databasescripts/SQL_Server_Technical_Documentation.pptx",
       "/home/ubuntu/sqlserver-databasescripts/SQL_Server_User_Guide.pptx"]) ∧
    (∀ env : ScriptEnv, (mainWrites env).length = 3) ∧
    (∀ env : ScriptEnv, ∀ p ∈ mainWrites env,
      "/home/ubuntu/sqlserver-databasescripts/".toList.isPrefixOf p.toList = true) := by
  refine ⟨fun _ _ => rfl, fun _ => rfl, fun _ => rfl, fun env p hp => ?_⟩
  simp only [mainWrites, overviewPresentationWrites, technicalPresentationWrites,
    userGuidePresentationWrites, List.append_assoc, List.mem_append,
    List.mem_singleton] at hp
  rcases hp with rfl | rfl | rfl <;> decide

/-- Witness for C10: with a concrete environment, the first written file is
the Overview deck and its path is under the hard-coded directory. -/
theorem mainWrites_three_fixed_paths_witness :
    "/home/ubuntu/sqlserver-databasescripts/".toList.isPrefixOf
      overviewSavePath.toList = true :=
  mainWrites_three_fixed_paths.2.2.2
    ⟨"/tmp", [("HOME", "/root")], ["create_presentations.py"]⟩
    overviewSavePath
    (by
      simp [mainWrites, overviewPresentationWrites, technicalPresentationWrites,
        userGuidePresentationWrites])

end PresentationScript

namespace SizeCalc

/-- Helper: code point of `Char.ofNat n` for small `n`. -/
lemma char_toNat_ofNat {n : ℕ} (h : n < 55296) : (Char.ofNat n).toNat = n := by
  have hv : n.isValidChar := Or.inl h
  unfold Char.ofNat
  rw [dif_pos hv]
  rfl

/-- Helper: a digit character has code point between 48 and 57. -/
lemma isDigitChar_bounds {c : Char} (h : isDigitChar c = true) :
    48 ≤ c.toNat ∧ c.toNat ≤ 57 := by
  simpa [isDigitChar] using h

/-- Helper: upper-casing fixes digit characters. -/
lemma upperChar_of_digit {c : Char} (h : isDigitChar c = true) : upperChar c = c := by
  obtain ⟨h1, h2⟩ := isDigitChar_bounds h
  unfold upperChar
  rw [if_neg (by omega)]

/-- Helper: a digit character is not a two-letter-unit initial. -/
lemma unitFactor_of_digit {c : Char} (h : isDigitChar c = true) :
    unitFactor (upperChar c) = none := by
  obtain ⟨h1, h2⟩ := isDigitChar_bounds h
  have hK : c ≠ 'K' := fun he => by subst he; revert h2; decide
  have hM : c ≠ 'M' := fun he => by subst he; revert h2; decide
  have hG : c ≠ 'G' := fun he => by subst he; revert h2; decide
  have hT : c ≠ 'T' := fun he => by subst he; revert h2; decide
  rw [upperChar_of_digit h]
  unfold unitFactor
  rw [if_neg hK, if_neg hM, if_neg hG, if_neg hT]

/-- Helper: the ten digit characters used by `natToDigits` are digits with the
expected value and are not dots. -/
lemma digit_char_facts : ∀ d : Fin 10,
    isDigitChar (Char.ofNat (48 + d.1)) = true ∧
      digitVal (Char.ofNat (48 + d.1)) = d.1 ∧ Char.ofNat (48 + d.1) ≠ '.' := by
  decide

/-- Helper: reading the digit characters of a little-endian digit list back,
most significant first. -/
lemma foldl_digits_map (ds : List ℕ) (hds : ∀ d ∈ ds, d < 10) (a : ℕ) :
    ((ds.map (fun d => Char.ofNat (48 + d))).reverse).foldl
        (fun acc c => acc * 10 + digitVal c) a =
      a * 10 ^ ds.length + Nat.ofDigits 10 ds := by
  induction ds generalizing a with
  | nil => simp [Nat.ofDigits]
  | cons d tl ih =>
    have hd : d < 10 := hds d (List.mem_cons_self d tl)
    have htl : ∀ x ∈ tl, x < 10 := fun x hx => hds x (List.mem_cons_of_mem d hx)
    have hdv : digitVal (Char.ofNat (48 + d)) = d := (digit_char_facts ⟨d, hd⟩).2.1
    simp only [List.map_cons, List.reverse_cons, List.foldl_append, List.foldl_cons,
      List.foldl_nil, ih htl a, hdv, List.length_cons, Nat.ofDigits_cons]
    rw [pow_succ]
    ring

/-- Helper: `natToDigits` produces only digit characters. -/
lemma natToDigits_all_digit (n : ℕ) : (natToDigits n).all isDigitChar = true := by
  by_cases hn : n = 0
  · subst hn; decide
  · rw [natToDigits, if_neg hn, List.all_eq_true]
    intro c hc
    rw [List.mem_reverse, List.mem_map] at hc
    obtain ⟨d, hd, rfl⟩ := hc
    have hlt : d < 10 := Nat.digits_lt_base (by norm_num) hd
    exact (digit_char_facts ⟨d, hlt⟩).1

/-- Helper: `natToDigits` is never empty. -/
lemma natToDigits_ne_nil (n : ℕ) : natToDigits n ≠ [] := by
  by_cases hn : n = 0
  · subst hn; decide
  · rw [natToDigits, if_neg hn]
    simp [Nat.digits_ne_nil_iff_ne_zero.mpr hn]

/-- Helper: `natToDigits` contains no dot. -/
lemma natToDigits_no_dot (n : ℕ) : ∀ c ∈ natToDigits n, c ≠ '.' := by
  intro c hc
  by_cases hn : n = 0
  · subst hn
    simp only [natToDigits, if_true, List.mem_singleton, reduceIte] at hc
    subst hc; decide
  · rw [natToDigits, if_neg hn, List.mem_reverse, List.mem_map] at hc
    obtain ⟨d, hd, rfl⟩ := hc
    have hlt : d < 10 := Nat.digits_lt_base (by norm_num) hd
    exact (digit_char_facts ⟨d, hlt⟩).2.2

/-- Helper: parsing the decimal digits of `n` recovers `n`. -/
lemma parseNatDigits_natToDigits (n : ℕ) :
    parseNatDigits (natToDigits n) = some n := by
  by_cases hn : n = 0
  · subst hn; decide
  · unfold parseNatDigits
    rw [if_neg (by simp [natToDigits_ne_nil n]), if_pos (natToDigits_all_digit n)]
    congr 1
    rw [natToDigits, if_neg hn,
      foldl_digits_map _ (fun d hd => Nat.digits_lt_base (by norm_num) hd) 0]
    simp [Nat.ofDigits_digits]

/-- Helper: `splitAtDot` leaves a dot-free list whole. -/
lemma splitAtDot_no_dot (cs : List Char) (h : ∀ c ∈ cs, c ≠ '.') :
    splitAtDot cs = (cs, none) := by
  induction cs with
  | nil => rfl
  | cons c rest ih =>
    unfold splitAtDot
    rw [if_neg (h c (List.mem_cons_self c rest))]
    simp [ih (fun x hx => h x (List.mem_cons_of_mem c hx))]

/-- Helper: `parseDecimal` on the decimal digits of `n` gives `n`. -/
lemma parseDecimal_natToDigits (n : ℕ) :
    parseDecimal (natToDigits n) = some (n : ℚ) := by
  unfold parseDecimal
  rw [splitAtDot_no_dot _ (natToDigits_no_dot n)]
  simp [parseNatDigits_natToDigits n]

/-- Helper: a non-empty all-digit numeric part followed by the unit `B`
strips to that numeric part with multiplier 1. -/
lemma stripUnit_append_B (ds : List Char) (hne : ds ≠ [])
    (hdig : ds.all isDigitChar = true) :
    stripUnit (ds ++ ['B']) = some (ds, 1) := by
  obtain ⟨k, rest2, hk⟩ : ∃ k rest2, ds.reverse = k :: rest2 := by
    cases hrev : ds.reverse with
    | nil => exact absurd (by simpa using hrev) hne
    | cons k r => exact ⟨k, r, rfl⟩
  have hkmem : k ∈ ds := by
    rw [← List.mem_reverse, hk]
    exact List.mem_cons_self k rest2
  have hkdig : isDigitChar k = true := by
    rw [List.all_eq_true] at hdig
    exact hdig k hkmem
  unfold stripUnit
  rw [List.reverse_append, show List.reverse ['B'] = ['B'] from rfl,
    List.singleton_append, hk]
  simp only [unitFactor_of_digit hkdig]
  rw [if_pos (by decide)]
  rw [← hk, List.reverse_reverse]

/-- Claim C9: round-trip — applying `convertSizeToBytes` to the canonical
string form of a byte count yields the same byte count back. -/
theorem convertSizeToBytes_roundTrip (n : ℕ) :
    convertSizeToBytes (canonicalSizeString n) = .ok (n : ℚ) := by
  unfold convertSizeToBytes canonicalSizeString
  rw [show (String.mk (natToDigits n ++ ['B'])).toList = natToDigits n ++ ['B']
      from rfl,
    stripUnit_append_B _ (natToDigits_ne_nil n) (natToDigits_all_digit n)]
  simp [parseDecimal_natToDigits n]

/-- Witness for C9, at the byte count 1536 (canonical form `"1536B"`). -/
theorem convertSizeToBytes_roundTrip_witness :
    convertSizeToBytes (canonicalSizeString 1536) = .ok (1536 : ℚ) := by
  have h := convertSizeToBytes_roundTrip 1536
  simpa using h

end SizeCalc

namespace SizeCalc

/-- Helper: `parseNatDigits` succeeds exactly on non-empty all-digit lists. -/
lemma parseNatDigits_isSome (cs : List Char) :
    (parseNatDigits cs).isSome = (!cs.isEmpty && cs.all isDigitChar) := by
  unfold parseNatDigits
  by_cases h1 : cs.isEmpty = true
  · simp [h1]
  · by_cases h2 : cs.all isDigitChar = true <;>
      simp [h1, h2]

/-- Helper: `parseDecimal` succeeds exactly on decimal numbers. -/
lemma parseDecimal_isSome (cs : List Char) :
    (parseDecimal cs).isSome = isDecimal cs := by
  unfold parseDecimal isDecimal
  rcases splitAtDot cs with ⟨i, fo⟩
  cases fo with
  | none =>
    dsimp only
    rw [← parseNatDigits_isSome]
    cases hp : parseNatDigits i <;> simp [hp]
  | some f =>
    dsimp only
    rw [← parseNatDigits_isSome i, ← parseNatDigits_isSome f]
    cases hpi : parseNatDigits i <;> cases hpf : parseNatDigits f <;>
      simp [hpi, hpf]

/-- Helper: full case analysis of `convertSizeToBytes`: it succeeds exactly
on well-formed size strings and otherwise fails with `InvalidSizeFormat`. -/
lemma convertSizeToBytes_cases (s : String) :
    ((∃ q, convertSizeToBytes s = .ok q) ∧ isSizeFormat s = true) ∨
      (convertSizeToBytes s = .error .InvalidSizeFormat ∧
        isSizeFormat s = false) := by
  cases hsu : stripUnit s.toList with
  | none =>
    right
    unfold convertSizeToBytes isSizeFormat
    rw [hsu]
    simp
  | some pf =>
    obtain ⟨np, f⟩ := pf
    cases hp : parseDecimal np with
    | none =>
      right
      have hd : isDecimal np = false := by
        rw [← parseDecimal_isSome, hp]
        rfl
      unfold convertSizeToBytes isSizeFormat
      rw [hsu]
      simp [hp, hd]
    | some q =>
      left
      have hd : isDecimal np = true := by
        rw [← parseDecimal_isSome, hp]
        rfl
      unfold convertSizeToBytes isSizeFormat
      rw [hsu]
      exact ⟨⟨q * f, by simp [hp]⟩, by simp [hd]⟩

/-- Claim C5: `convertSizeToBytes` fails — always with `InvalidSizeFormat` —
exactly when the string lacks a recognized unit suffix or has a non-numeric
magnitude (is not of the well-formed `<number><unit>` shape); in particular
the malformed input `"50XB"` yields `InvalidSizeFormat`. -/
theorem convertSizeToBytes_invalidSizeFormat :
    (∀ s : String,
      convertSizeToBytes s = .error .InvalidSizeFormat ↔ isSizeFormat s = false) ∧
    convertSizeToBytes "50XB" = .error .InvalidSizeFormat := by
  refine ⟨fun s => ?_, rfl⟩
  rcases convertSizeToBytes_cases s with ⟨⟨q, hq⟩, hf⟩ | ⟨he, hf⟩
  · constructor
    · intro h
      rw [hq] at h
      exact Except.noConfusion h
    · intro h
      rw [hf] at h
      exact Bool.noConfusion h
  · exact ⟨fun _ => hf, fun _ => he⟩

/-- Witness for C5, at the malformed input `"50XB"`: the conversion fails
with `InvalidSizeFormat` and the string is indeed not well-formed. -/
theorem convertSizeToBytes_invalidSizeFormat_witness :
    convertSizeToBytes "50XB" = .error .InvalidSizeFormat ∧
      isSizeFormat "50XB" = false :=
  ⟨convertSizeToBytes_invalidSizeFormat.2,
    (convertSizeToBytes_invalidSizeFormat.1 "50XB").mp
      convertSizeToBytes_invalidSizeFormat.2⟩

end SizeCalc

namespace SizeCalc

/-- Helper: values produced by `parseDecimal` are non-negative. -/
lemma parseDecimal_nonneg {cs : List Char} {q : ℚ}
    (hq : parseDecimal cs = some q) : 0 ≤ q := by
  unfold parseDecimal at hq
  rcases hsp : splitAtDot cs with ⟨i, fo⟩
  rw [hsp] at hq
  cases fo with
  | none =>
    dsimp only at hq
    cases hp : parseNatDigits i with
    | none => rw [hp] at hq; simp at hq
    | some m =>
      rw [hp] at hq
      simp at hq
      subst hq
      positivity
  | some f =>
    dsimp only at hq
    cases hpi : parseNatDigits i with
    | none => rw [hpi] at hq; simp at hq
    | some n =>
      cases hpf : parseNatDigits f with
      | none => rw [hpi, hpf] at hq; simp at hq
      | some m =>
        rw [hpi, hpf] at hq
        simp at hq
        subst hq
        positivity

/-- Helper: `unitFactor` only produces positive multipliers. -/
lemma unitFactor_pos {c : Char} {f : ℚ} (h : unitFactor c = some f) : 0 < f := by
  unfold unitFactor at h
  split_ifs at h <;> simp only [Option.some.injEq] at h <;> rw [← h] <;> norm_num

/-- Helper: the multiplier attached by `stripUnit` is positive. -/
lemma stripUnit_factor_pos {cs np : List Char} {f : ℚ}
    (h : stripUnit cs = some (np, f)) : 0 < f := by
  unfold stripUnit at h
  cases hrev : cs.reverse with
  | nil => rw [hrev] at h; simp at h
  | cons b rest =>
    rw [hrev] at h
    dsimp only at h
    split_ifs at h with hb
    · cases rest with
      | nil => simp at h
      | cons k rest2 =>
        dsimp only at h
        cases hu : unitFactor (upperChar k) with
        | none =>
          rw [hu] at h
          simp only [Option.some.injEq, Prod.mk.injEq] at h
          rw [← h.2]
          norm_num
        | some g =>
          rw [hu] at h
          simp only [Option.some.injEq, Prod.mk.injEq] at h
          rw [← h.2]
          exact unitFactor_pos hu

/-- Helper: every successful conversion yields a non-negative byte count. -/
lemma convertSizeToBytes_nonneg {s : String} {q : ℚ}
    (h : convertSizeToBytes s = .ok q) : 0 ≤ q := by
  unfold convertSizeToBytes at h
  cases hsu : stripUnit s.toList with
  | none => rw [hsu] at h; exact absurd h (by simp)
  | some pf =>
    obtain ⟨np, f⟩ := pf
    rw [hsu] at h
    dsimp only at h
    cases hp : parseDecimal np with
    | none => rw [hp] at h; exact absurd h (by simp)
    | some q0 =>
      rw [hp] at h
      simp only [Except.ok.injEq] at h
      rw [← h]
      exact mul_nonneg (parseDecimal_nonneg hp) (le_of_lt (stripUnit_factor_pos hsu))

end SizeCalc

namespace SizeCalc

/-- Helper: acceptance of `convertSizeToBytes` matches `isSizeFormat`. -/
lemma isOkResult_convert (s : String) :
    isOkResult (convertSizeToBytes s) = isSizeFormat s := by
  rcases convertSizeToBytes_cases s with ⟨⟨q, hq⟩, hf⟩ | ⟨he, hf⟩
  · rw [hq, hf]; rfl
  · rw [he, hf]; rfl

/-- Helper: `stripUnit` with a two-letter unit suffix appended. -/
lemma stripUnit_append_unit (cs : List Char) {u : Char} {f : ℚ}
    (hu : unitFactor (upperChar u) = some f) :
    stripUnit (cs ++ [u, 'B']) = some (cs, f) := by
  unfold stripUnit
  rw [List.reverse_append, show List.reverse [u, 'B'] = ['B', u] from rfl]
  simp only [List.cons_append, List.nil_append]
  rw [if_pos (show upperChar 'B' = 'B' from by decide)]
  rw [hu]
  dsimp only
  rw [List.reverse_reverse]

/-- Helper: converting an all-digit numeric part followed by the unit `B`. -/
lemma convert_digits_append_B (p : List Char) (hdig : p.all isDigitChar = true) :
    convertSizeToBytes (String.mk (p ++ ['B'])) =
      (parseDecimal p).elim (Except.error CalcError.InvalidSizeFormat)
        (fun q => Except.ok (q * 1)) := by
  cases p with
  | nil => rfl
  | cons c rest =>
    unfold convertSizeToBytes
    rw [show (String.mk ((c :: rest) ++ ['B'])).toList = (c :: rest) ++ ['B'] from rfl,
      stripUnit_append_B (c :: rest) (by simp) hdig]
    dsimp only
    cases hpd : parseDecimal (c :: rest) <;> rfl

/-- Helper: converting a numeric part followed by a two-letter unit suffix. -/
lemma convert_unit_eq (p : List Char) {u : Char} {f : ℚ}
    (hu : unitFactor (upperChar u) = some f) :
    convertSizeToBytes (String.mk (p ++ [u, 'B'])) =
      (parseDecimal p).elim (Except.error CalcError.InvalidSizeFormat)
        (fun q => Except.ok (q * f)) := by
  unfold convertSizeToBytes
  rw [show (String.mk (p ++ [u, 'B'])).toList = p ++ [u, 'B'] from rfl,
    stripUnit_append_unit p hu]
  dsimp only
  cases hpd : parseDecimal p <;> rfl

end SizeCalc

namespace SizeCalc

/-- Helper: code point of `upperChar`. -/
lemma upperChar_toNat (c : Char) :
    (upperChar c).toNat =
      if 97 ≤ c.toNat ∧ c.toNat ≤ 122 then c.toNat - 32 else c.toNat := by
  unfold upperChar
  split_ifs with h
  · exact char_toNat_ofNat (by omega)
  · rfl

/-- Helper: `upperChar` fixes characters outside the lower-case range. -/
lemma upperChar_eq_self {c : Char} (h : ¬(97 ≤ c.toNat ∧ c.toNat ≤ 122)) :
    upperChar c = c := by
  unfold upperChar
  rw [if_neg h]

/-- Helper: `upperChar` is idempotent. -/
lemma upperChar_upperChar (c : Char) : upperChar (upperChar c) = upperChar c := by
  apply upperChar_eq_self
  rw [upperChar_toNat c]
  split_ifs with hc <;> omega

/-- Helper: `upperChar` maps only the dot to the dot. -/
lemma upperChar_dot_iff (c : Char) : upperChar c = '.' ↔ c = '.' := by
  constructor
  · intro h
    by_cases hc : 97 ≤ c.toNat ∧ c.toNat ≤ 122
    · exfalso
      have ht := congrArg Char.toNat h
      rw [upperChar_toNat c, if_pos hc] at ht
      rw [show ('.' : Char).toNat = 46 from by decide] at ht
      omega
    · rwa [upperChar_eq_self hc] at h
  · intro h
    subst h
    decide

/-- Helper: `upperChar` preserves digit-ness. -/
lemma isDigitChar_upperChar (c : Char) :
    isDigitChar (upperChar c) = isDigitChar c := by
  unfold isDigitChar
  rw [upperChar_toNat c]
  split_ifs with hc
  · rw [decide_eq_false (show ¬(c.toNat - 32 ≤ 57) from by omega),
      decide_eq_false (show ¬(c.toNat ≤ 57) from by omega)]
    simp
  · rfl

/-- Helper: upper-casing fixes an all-digit list. -/
lemma map_upper_of_digits {cs : List Char} (h : cs.all isDigitChar = true) :
    cs.map upperChar = cs := by
  induction cs with
  | nil => rfl
  | cons c rest ih =>
    rw [List.all_cons, Bool.and_eq_true] at h
    rw [List.map_cons, upperChar_of_digit h.1, ih h.2]

/-- Helper: upper-casing preserves the all-digit test. -/
lemma all_isDigitChar_map_upper (cs : List Char) :
    (cs.map upperChar).all isDigitChar = cs.all isDigitChar := by
  induction cs with
  | nil => rfl
  | cons c rest ih =>
    rw [List.map_cons, List.all_cons, List.all_cons, isDigitChar_upperChar, ih]

/-- Helper: `parseNatDigits` is unchanged by upper-casing. -/
lemma parseNatDigits_map_upper (cs : List Char) :
    parseNatDigits (cs.map upperChar) = parseNatDigits cs := by
  unfold parseNatDigits
  rw [show (cs.map upperChar).isEmpty = cs.isEmpty from by cases cs <;> rfl,
    all_isDigitChar_map_upper cs]
  by_cases h1 : cs.isEmpty = true
  · rw [if_pos h1, if_pos h1]
  · rw [if_neg h1, if_neg h1]
    by_cases h2 : cs.all isDigitChar = true
    · rw [if_pos h2, if_pos h2, map_upper_of_digits h2]
    · rw [if_neg h2, if_neg h2]

/-- Helper: `splitAtDot` commutes with upper-casing. -/
lemma splitAtDot_map_upper (cs : List Char) :
    splitAtDot (cs.map upperChar) =
      ((splitAtDot cs).1.map upperChar,
        (splitAtDot cs).2.map (fun l => l.map upperChar)) := by
  induction cs with
  | nil => rfl
  | cons c rest ih =>
    by_cases hc : c = '.'
    · subst hc
      rw [List.map_cons]
      unfold splitAtDot
      rw [if_pos (show upperChar '.' = '.' from by decide), if_pos rfl]
      rfl
    · rw [List.map_cons]
      unfold splitAtDot
      rw [if_neg (fun hcc => hc ((upperChar_dot_iff c).mp hcc)), if_neg hc]
      dsimp only
      rw [ih]
      simp

/-- Helper: `parseDecimal` is unchanged by upper-casing. -/
lemma parseDecimal_map_upper (cs : List Char) :
    parseDecimal (cs.map upperChar) = parseDecimal cs := by
  unfold parseDecimal
  rw [splitAtDot_map_upper cs]
  rcases splitAtDot cs with ⟨i, fo⟩
  cases fo with
  | none =>
    dsimp only [Option.map_none']
    rw [parseNatDigits_map_upper]
  | some f =>
    dsimp only [Option.map_some']
    rw [parseNatDigits_map_upper i, parseNatDigits_map_upper f]
    cases parseNatDigits i <;> cases parseNatDigits f <;>
      simp [List.length_map]

/-- Helper: `stripUnit` commutes with upper-casing of the numeric part. -/
lemma stripUnit_map_upper (cs : List Char) :
    stripUnit (cs.map upperChar) =
      (stripUnit cs).map (fun pf => (pf.1.map upperChar, pf.2)) := by
  unfold stripUnit
  rw [← List.map_reverse]
  cases cs.reverse with
  | nil => rfl
  | cons b rest =>
    dsimp only [List.map_cons]
    rw [upperChar_upperChar b]
    by_cases hb : upperChar b = 'B'
    · rw [if_pos hb, if_pos hb]
      cases rest with
      | nil => rfl
      | cons k rest2 =>
        dsimp only [List.map_cons]
        rw [upperChar_upperChar k]
        cases unitFactor (upperChar k) with
        | none => simp
        | some g => simp
    · rw [if_neg hb, if_neg hb]
      rfl

/-- Helper: `convertSizeToBytes` is case-insensitive. -/
lemma convert_map_upper (s : String) :
    convertSizeToBytes (String.mk (s.toList.map upperChar)) =
      convertSizeToBytes s := by
  unfold convertSizeToBytes
  rw [show (String.mk (s.toList.map upperChar)).toList = s.toList.map upperChar
      from rfl,
    stripUnit_map_upper]
  cases stripUnit s.toList with
  | none => rfl
  | some pf =>
    obtain ⟨np, f⟩ := pf
    simp only [Option.map_some']
    rw [parseDecimal_map_upper np]

end SizeCalc

namespace SizeCalc

/-- Claim C6: `convertSizeToBytes` accepts exactly the unit suffixes `B`,
`KB`, `MB`, `GB`, `TB` (case-insensitive) after a decimal number, converts
with binary multiples — each unit step multiplies by 1024, starting from
`B` — and always yields a non-negative byte count. -/
theorem convertSizeToBytes_units :
    (∀ (s : String) (q : ℚ), convertSizeToBytes s = .ok q → 0 ≤ q) ∧
    (∀ s : String, isOkResult (convertSizeToBytes s) = isSizeFormat s) ∧
    (∀ s : String,
      convertSizeToBytes (String.mk (s.toList.map upperChar)) =
        convertSizeToBytes s) ∧
    (∀ p : String, p.toList.all isDigitChar = true →
      convertSizeToBytes (p ++ "KB") =
        (convertSizeToBytes (p ++ "B")).map (· * 1024) ∧
      convertSizeToBytes (p ++ "MB") =
        (convertSizeToBytes (p ++ "KB")).map (· * 1024) ∧
      convertSizeToBytes (p ++ "GB") =
        (convertSizeToBytes (p ++ "MB")).map (· * 1024) ∧
      convertSizeToBytes (p ++ "TB") =
        (convertSizeToBytes (p ++ "GB")).map (· * 1024)) := by
  refine ⟨fun s q h => convertSizeToBytes_nonneg h, isOkResult_convert,
    convert_map_upper, fun p hdig => ?_⟩
  have eB := convert_digits_append_B p.toList hdig
  have eK := convert_unit_eq p.toList (u := 'K') (f := 1024) (by decide)
  have eM := convert_unit_eq p.toList (u := 'M') (f := 1024 ^ 2) (by decide)
  have eG := convert_unit_eq p.toList (u := 'G') (f := 1024 ^ 3) (by decide)
  have eT := convert_unit_eq p.toList (u := 'T') (f := 1024 ^ 4) (by decide)
  rw [show p ++ "KB" = String.mk (p.toList ++ ['K', 'B']) from rfl,
    show p ++ "MB" = String.mk (p.toList ++ ['M', 'B']) from rfl,
    show p ++ "GB" = String.mk (p.toList ++ ['G', 'B']) from rfl,
    show p ++ "TB" = String.mk (p.toList ++ ['T', 'B']) from rfl,
    show p ++ "B" = String.mk (p.toList ++ ['B']) from rfl,
    eB, eK, eM, eG, eT]
  cases parseDecimal p.toList with
  | none => exact ⟨rfl, rfl, rfl, rfl⟩
  | some q =>
    refine ⟨?_, ?_, ?_, ?_⟩ <;>
      (dsimp only [Option.elim, Except.map]; congr 1; ring)

/-- Witness for C6: at the numeric part `"50"` the `KB` conversion is 1024
times the `B` conversion, acceptance matches the format check on `"50GB"`,
and the value converted from the canonical form of 50 bytes is
non-negative. -/
theorem convertSizeToBytes_units_witness :
    (0 : ℚ) ≤ ((50 : ℕ) : ℚ) * 1 ∧
      isOkResult (convertSizeToBytes "50GB") = isSizeFormat "50GB" ∧
      convertSizeToBytes ("50" ++ "KB") =
        (convertSizeToBytes ("50" ++ "B")).map (· * 1024) := by
  have hc : convertSizeToBytes (canonicalSizeString 50) =
      .ok (((50 : ℕ) : ℚ) * 1) := by
    unfold convertSizeToBytes canonicalSizeString
    rw [show (String.mk (natToDigits 50 ++ ['B'])).toList = natToDigits 50 ++ ['B']
        from rfl,
      stripUnit_append_B _ (natToDigits_ne_nil 50) (natToDigits_all_digit 50)]
    dsimp only
    rw [parseDecimal_natToDigits 50]
  exact ⟨convertSizeToBytes_units.1 (canonicalSizeString 50) _ hc,
    convertSizeToBytes_units.2.1 "50GB",
    (convertSizeToBytes_units.2.2.2 "50" (by decide)).1⟩

end SizeCalc
